import Mathlib

/-!
Verification of the pattern-migration scripts in `scripts/`
(`update_audit_logging.py`, `update_auth_patterns.py`,
`update_auth_patterns_v2.py`).

The scripts are regex-driven text rewriters.  Every regex they use is
built from literals, character classes, greedy `*`/`+` over a single
character class, ordered alternation `(?:a|b)` and option `(?:a)?`, so
we embed a small backtracking matcher whose candidate order coincides
with the Python `re` semantics for this fragment: alternatives are
tried left first, and a greedy repetition tries the longest run first
and backtracks downwards.  `re.search` scans start positions from the
left and returns the first position at which the backtracking search
succeeds, with the first (highest-priority) candidate length.

Texts are modelled as `List Char`.  Character classes follow the ASCII
meaning of Python's `\s`, `\w`, `\d` (the route files the scripts
target are ASCII).
-/

set_option maxHeartbeats 4000000
set_option maxRecDepth 100000

/-- String literal helper: the Lean string as a `List Char`. -/
def chars (s : String) : List Char := s.toList

/-- Python `\s` (ASCII range). -/
def wsP (c : Char) : Bool :=
  c = ' ' || c = '\t' || c = '\n' || c = '\x0d' || c = '\x0b' || c = '\x0c'

/-- Python `\d` (ASCII range). -/
def digitP (c : Char) : Bool := 48 ≤ c.toNat && c.toNat ≤ 57

/-- Python `\w` (ASCII range). -/
def wordP (c : Char) : Bool :=
  (97 ≤ c.toNat && c.toNat ≤ 122) || (65 ≤ c.toNat && c.toNat ≤ 90) ||
  (48 ≤ c.toNat && c.toNat ≤ 57) || c = '_'

/-- The class `['"]`. -/
def quoteP (c : Char) : Bool := c = '\x27' || c = '\x22'

/-- The class `[^'"]`. -/
def notQuoteP (c : Char) : Bool := !(quoteP c)

/-- The class `[^}]`. -/
def notBraceP (c : Char) : Bool := !(c = '\x7d')

/-- The class `[^)]`. -/
def notParenP (c : Char) : Bool := !(c = ')')

/-- The class `[^,\n]`. -/
def notCommaNlP (c : Char) : Bool := !(c = ',' || c = '\n')

/-- Regular expressions of the fragment the scripts use.  Repetition is
only ever applied to a single character class, which keeps the matcher
structurally recursive. -/
inductive Regex where
  | eps : Regex
  | lit (s : List Char) : Regex
  | cls (p : Char → Bool) : Regex
  | cat (a b : Regex) : Regex
  | alt (a b : Regex) : Regex
  | star (p : Char → Bool) : Regex
  | plus (p : Char → Bool) : Regex
  | opt (a : Regex) : Regex

/-- Concatenation of a list of regexes. -/
def Regex.cats : List Regex → Regex
  | [] => .eps
  | r :: rs => .cat r (Regex.cats rs)

/-- Candidate lengths for a greedy class repetition `p*` at the front of
`l`: the maximal run length first, backtracking down to `0`. -/
def starLens (p : Char → Bool) (l : List Char) : List Nat :=
  (List.range ((l.takeWhile p).length + 1)).reverse

/-- All candidate lengths of a match of `r` at the front of `l`, in
Python backtracking priority order (first element = the match `re`
would pick at this position). -/
def matchesLen : Regex → List Char → List Nat
  | .eps, _ => [0]
  | .lit s, l => if s.isPrefixOf l then [s.length] else []
  | .cls p, l =>
    match l with
    | [] => []
    | c :: _ => if p c then [1] else []
  | .cat a b, l =>
    (matchesLen a l).flatMap fun n =>
      (matchesLen b (l.drop n)).map fun m => n + m
  | .alt a b, l => matchesLen a l ++ matchesLen b l
  | .star p, l => starLens p l
  | .plus p, l =>
    match l with
    | [] => []
    | c :: cs => if p c then (starLens p cs).map fun n => n + 1 else []
  | .opt a, l => matchesLen a l ++ [0]

/-- Model of `re.search`: leftmost match of `r` in `l`, returned as the
decomposition `(before, matched, after)`. -/
def findMatch (r : Regex) : List Char → Option (List Char × List Char × List Char)
  | [] =>
    match (matchesLen r []).head? with
    | some _ => some ([], [], [])
    | none => none
  | c :: cs =>
    match (matchesLen r (c :: cs)).head? with
    | some n => some ([], (c :: cs).take n, (c :: cs).drop n)
    | none => (findMatch r cs).map fun pq => (c :: pq.1, pq.2.1, pq.2.2)

/-- Model of `re.sub(pattern, repl, text, count=1)`: replace the leftmost match. -/
def sub1 (r : Regex) (repl : List Char) (l : List Char) : List Char :=
  match findMatch r l with
  | none => l
  | some (pre, _, post) => pre ++ repl ++ post

/-- Model of `re.sub(pattern, r"\1" + ins, text, count=1)` where the whole
pattern is the first group: keep the match and append `ins` after it. -/
def sub1App (r : Regex) (ins : List Char) (l : List Char) : List Char :=
  match findMatch r l with
  | none => l
  | some (pre, m, post) => pre ++ m ++ ins ++ post

/-- Fuelled worker for `re.sub` with unlimited count: replace the
leftmost match, continue scanning after it.  The patterns the scripts
use can never match the empty string (each starts with a nonempty
literal); the empty-match guard only keeps the function total. -/
def subAllF (r : Regex) (repl : List Char) : Nat → List Char → List Char × Nat
  | 0, l => (l, 0)
  | fuel + 1, l =>
    match findMatch r l with
    | none => (l, 0)
    | some (pre, m, post) =>
      if m.isEmpty then (l, 0)
      else
        let rest := subAllF r repl fuel post
        (pre ++ repl ++ rest.1, rest.2 + 1)

/-- Model of `re.subn(pattern, repl, text)`: the rewritten text and the number of
replacements.  `l.length + 1` fuel always suffices because every match
consumes at least one character. -/
def subAllN (r : Regex) (repl : List Char) (l : List Char) : List Char × Nat :=
  subAllF r repl (l.length + 1) l

/-- Model of `re.sub(pattern, repl, text)` (replace every occurrence). -/
def subAll (r : Regex) (repl : List Char) (l : List Char) : List Char :=
  (subAllN r repl l).1

/-- Fuelled count of the leftmost non-overlapping matches of `r`,
scanning exactly like `subAllF`. -/
def countMatchesF (r : Regex) : Nat → List Char → Nat
  | 0, _ => 0
  | fuel + 1, l =>
    match findMatch r l with
    | none => 0
    | some (_, m, post) =>
      if m.isEmpty then 0 else countMatchesF r fuel post + 1

/-- Number of leftmost non-overlapping matches of `r` in `l`. -/
def countMatches (r : Regex) (l : List Char) : Nat :=
  countMatchesF r (l.length + 1) l

/-- Candidate splits for a pattern of the form `a(g)b` with one capture
group: consumed lengths `(n₁, n₂, n₃)` of `a`, the group and `b`, in
backtracking priority order, at the front of `l`. -/
def grpLens (a g b : Regex) (l : List Char) : Option (Nat × Nat × Nat) :=
  ((matchesLen a l).flatMap fun n1 =>
    ((matchesLen g (l.drop n1)).flatMap fun n2 =>
      ((matchesLen b (l.drop (n1 + n2))).map fun n3 => (n1, n2, n3)))).head?

/-- Model of `re.search` for a pattern `a(g)b` with one capture group: leftmost
match as `(before, whole match, group 1, after)`. -/
def findGMatch (a g b : Regex) : List Char →
    Option (List Char × List Char × List Char × List Char)
  | [] =>
    match grpLens a g b [] with
    | some _ => some ([], [], [], [])
    | none => none
  | c :: cs =>
    match grpLens a g b (c :: cs) with
    | some (n1, n2, n3) =>
      some ([], (c :: cs).take (n1 + n2 + n3),
        ((c :: cs).drop n1).take n2, (c :: cs).drop (n1 + n2 + n3))
    | none => (findGMatch a g b cs).map fun pq => (c :: pq.1, pq.2.1, pq.2.2.1, pq.2.2.2)

/-- Model of `re.search(pattern, s).group(1)` for a pattern `a(g)b`. -/
def searchGroup (a g b : Regex) (l : List Char) : Option (List Char) :=
  (findGMatch a g b l).map fun pq => pq.2.2.1

/-- Fuelled `re.sub` with a replacement function of the whole match and
group 1, for a pattern `a(g)b`. -/
def subAllFnF (a g b : Regex) (f : List Char → List Char → List Char) :
    Nat → List Char → List Char
  | 0, l => l
  | fuel + 1, l =>
    match findGMatch a g b l with
    | none => l
    | some (pre, whole, grp, post) =>
      if whole.isEmpty then l
      else pre ++ f whole grp ++ subAllFnF a g b f fuel post

/-- Model of `re.sub(pattern, fn, text)` for a pattern `a(g)b` with a replacement
function. -/
def subAllFn (a g b : Regex) (f : List Char → List Char → List Char)
    (l : List Char) : List Char :=
  subAllFnF a g b f (l.length + 1) l

/-- Python's `needle in haystack` substring test. -/
def hasSub (pat : List Char) : List Char → Bool
  | [] => pat.isEmpty
  | c :: cs => pat.isPrefixOf (c :: cs) || hasSub pat cs

/-- Fuelled worker for `str.replace` with a nonempty pattern: on a match
skip `pat.length` characters (one from the head, `pat.length - 1` from
the tail), otherwise advance one character.  Each step consumes at least
one character, so fuel `l.length` always suffices. -/
def replaceAllF (p rep : List Char) : Nat → List Char → List Char
  | 0, l => l
  | _ + 1, [] => []
  | fuel + 1, c :: cs =>
    if p.isPrefixOf (c :: cs) then
      rep ++ replaceAllF p rep fuel (List.drop (p.length - 1) cs)
    else
      c :: replaceAllF p rep fuel cs

/-- Python's `str.replace(pat, rep)`: replace every non-overlapping
occurrence, scanning from the left.  (The scripts only call it with a
nonempty `pat`; for an empty one Python would interleave `rep`
everywhere, which we do not need.) -/
def replaceAll (p rep l : List Char) : List Char :=
  if p.isEmpty then l else replaceAllF p rep l.length l

/-- Fuelled worker for the occurrence count. -/
def countOccF (p : List Char) : Nat → List Char → Nat
  | 0, _ => 0
  | _ + 1, [] => 0
  | fuel + 1, c :: cs =>
    if p.isPrefixOf (c :: cs) then
      countOccF p fuel (List.drop (p.length - 1) cs) + 1
    else
      countOccF p fuel cs

/-- Number of non-overlapping occurrences of a nonempty `pat`, scanning
from the left (Python `str.count`). -/
def countOcc (p l : List Char) : Nat :=
  if p.isEmpty then 0 else countOccF p l.length l

/-- Python's `str.strip()` (ASCII whitespace). -/
def strip (l : List Char) : List Char :=
  ((l.dropWhile wsP).reverse.dropWhile wsP).reverse

/-- Decimal rendering of a number, for the console lines. -/
def natChars (n : Nat) : List Char := (Nat.repr n).toList

/-- Number of `'g'` characters; the termination measure for the
`while` loops of `update_auth_patterns_v2.py`. -/
def countG (l : List Char) : Nat := l.count 'g'

/-- Outcome of one simulated file system interaction: whether the path
exists, the result of reading it, and—when a write is attempted—whether
the write raises (`some message`). -/
structure Fio where
  exist : Bool
  read : Except (List Char) (List Char)
  wfail : Option (List Char)

/-- Result of a batch run: the `updated_count`, the denominator of the
final tally, and the console lines. -/
structure MainOut where
  updated : Nat
  total : Nat
  lines : List (List Char)

/-- The line `print(f"❌ Error updating <filepath>: <e>")`, shared by all three
scripts. -/
def errLine (path msg : List Char) : List Char :=
  chars ("❌ Error updating ") ++ path ++ chars (": ") ++ msg

/-- The first literal of every authorization-block pattern in
`update_auth_patterns.py` and `update_auth_patterns_v2.py`. -/
def sessHead : List Char :=
  chars ("const session = await getServerSession(authOptions);")

/-- The text `new_auth_code`, the replacement text of every authorization rewrite
(`update_auth_patterns.py` line 42, and the inline replacement of
`update_auth_patterns_v2.py`). -/
def new_auth_code : List Char :=
  chars ("// Authorization check\n    const \x7b error, session \x7d = await requireAdminRole();\n    if (error) return error;")

namespace Audit

/-- The marker `'prisma.auditLog.create'`, the cheap legacy-presence check. -/
def needle : List Char := chars ("prisma.auditLog.create")

/-- The import anchor `"from '@/lib/db/prisma';"`. -/
def anchor : List Char := chars ("from '@/lib/db/prisma';")

/-- The dependency line appended after the anchor by Step 1. -/
def importIns : List Char :=
  chars ("\nimport \x7b logAudit \x7d from '@/lib/audit/logger';")

/-- Part of the audit-block regex (line 40) before the capture group:
`// Log the action \(skip if audit log fails\)\s*\n\s*try \{\s*\n\s*await prisma\.auditLog\.create\(\{`. -/
def patA : Regex :=
  Regex.cats [.lit (chars ("// Log the action (skip if audit log fails)")),
    .star wsP, .lit (chars ("\n")), .star wsP, .lit (chars ("try \x7b")),
    .star wsP, .lit (chars ("\n")), .star wsP,
    .lit (chars ("await prisma.auditLog.create(\x7b"))]

/-- The capture group `([^}]+data:\s*\{[^}]+\}[^}]*)`. -/
def patG : Regex :=
  Regex.cats [.plus notBraceP, .lit (chars ("data:")), .star wsP,
    .lit (chars ("\x7b")), .plus notBraceP, .lit (chars ("\x7d")),
    .star notBraceP]

/-- The part after the capture group:
`\}\);\s*\n\s*\} catch \([^\)]+\) \{\s*\n\s*console\.warn\([^\)]+\);[^}]*\n\s*\}`. -/
def patB : Regex :=
  Regex.cats [.lit (chars ("\x7d);")), .star wsP, .lit (chars ("\n")),
    .star wsP, .lit (chars ("\x7d catch (")), .plus notParenP,
    .lit (chars (") \x7b")), .star wsP, .lit (chars ("\n")), .star wsP,
    .lit (chars ("console.warn(")), .plus notParenP, .lit (chars (");")),
    .star notBraceP, .lit (chars ("\n")), .star wsP, .lit (chars ("\x7d"))]

/-- Parts of `re.search(r'userId:\s*([^,\n]+)', d)` as `a(g)b`. -/
def userIdA : Regex := Regex.cats [.lit (chars ("userId:")), .star wsP]

/-- Part of `re.search(r"action:\s*['\"](\w+)['\"]", d)` before the group. -/
def actionA : Regex :=
  Regex.cats [.lit (chars ("action:")), .star wsP, .cls quoteP]

/-- Part of `re.search(r"resource:\s*['\"](\w+)['\"]", d)` before the group. -/
def resourceA : Regex :=
  Regex.cats [.lit (chars ("resource:")), .star wsP, .cls quoteP]

/-- Part of `re.search(r'resourceId:\s*([^,\n]+)', d)` before the group. -/
def resourceIdA : Regex := Regex.cats [.lit (chars ("resourceId:")), .star wsP]

/-- Part of `re.search(r'details:\s*(\{[^}]+\})', d)` before the group. -/
def detailsA : Regex := Regex.cats [.lit (chars ("details:")), .star wsP]

/-- The group `(\{[^}]+\})` of the details search. -/
def detailsG : Regex :=
  Regex.cats [.lit (chars ("\x7b")), .plus notBraceP, .lit (chars ("\x7d"))]

/-- The f-string template built by `replace_audit_log` (lines 65-74). -/
def logAuditCall (u a r rid det : List Char) : List Char :=
  chars ("// Audit log\n    await logAudit(\x7b\n      userId: ") ++ u ++
  chars (",\n      action: '") ++ a ++
  chars ("',\n      resource: '") ++ r ++
  chars ("',\n      resourceId: ") ++ rid ++
  chars (",\n      details: ") ++ det ++
  chars (",\n      ipAddress: request.headers.get('x-forwarded-for') || request.ip || 'unknown',\n      userAgent: request.headers.get('user-agent') || 'unknown',\n    \x7d);")

/-- Model of `replace_audit_log(match)` (lines 45-74): extract the sub-fields from
`group(1)`; if `userId`, `action` or `resource` cannot be extracted,
return `group(0)` (the whole match) unchanged. -/
def replace_audit_log (whole grp : List Char) : List Char :=
  let userId := searchGroup userIdA (.plus notCommaNlP) .eps grp
  let action := searchGroup actionA (.plus wordP) (.cls quoteP) grp
  let resource := searchGroup resourceA (.plus wordP) (.cls quoteP) grp
  let resourceId := searchGroup resourceIdA (.plus notCommaNlP) .eps grp
  let details := searchGroup detailsA detailsG .eps grp
  match userId, action, resource with
  | some u, some a, some r =>
    logAuditCall (strip u) a r
      ((resourceId.map strip).getD (chars ("undefined")))
      ((details.map strip).getD (chars ("\x7b\x7d")))
  | _, _, _ => whole

/-- Step 1 (lines 27-34): if `logAudit` is absent and the prisma import
anchor present, append the dependency line after every anchor
occurrence (`str.replace` replaces them all); returns the text and the
`changes_made` increment. -/
def injectStep (c : List Char) : List Char × Nat :=
  if !(hasSub (chars ("logAudit")) c) && hasSub anchor c then
    (replaceAll anchor (anchor ++ importIns) c, 1)
  else (c, 0)

/-- Step 2 (line 76): `pattern.sub(replace_audit_log, content)`. -/
def subPass (c : List Char) : List Char :=
  subAllFn patA patG patB replace_audit_log c

/-- Result of processing one file's text. -/
structure Out where
  text : List Char
  writes : List (List Char)
  ret : Bool
  changes : Nat

/-- The pure part of `update_file` (lines 19-88): the guard on the
legacy substring, import injection, the audit-block substitution, and
the decision to write (`changes_made > 0 and content != original`). -/
def updateText (c : List Char) : Out :=
  if !(hasSub needle c) then ⟨c, [], false, 0⟩
  else
    let i := injectStep c
    let s := subPass i.1
    let k2 := if s ≠ i.1 then 1 else 0
    if 0 < i.2 + k2 ∧ s ≠ c then ⟨s, [s], true, i.2 + k2⟩
    else ⟨s, [], false, i.2 + k2⟩

/-- Model of `update_file(filepath)` with the I/O outcomes made explicit: a read
or write exception is caught, an error line printed and `False`
returned.  Returns `(return value, printed lines, completed writes)`. -/
def update_file (path : List Char) (fio : Fio) :
    Bool × List (List Char) × List (List Char) :=
  match fio.read with
  | .error e => (false, [errLine path e], [])
  | .ok content =>
    let o := updateText content
    match o.writes with
    | [] => (false, [], [])
    | w :: _ =>
      match fio.wfail with
      | some e => (false, [errLine path e], [])
      | none =>
        (true,
          [chars ("✅ Updated: ") ++ path ++ chars (" (") ++
            natChars o.changes ++ chars (" change(s))")], [w])

/-- Model of `main()` (lines 94-113): pre-scan the candidates for the legacy
substring (files that cannot be read, or lack it, are dropped by the
`except: pass`/membership test), then run `update_file` on the
survivors and print the tally over the survivors only. -/
def main (cands : List (List Char × Fio)) : MainOut :=
  let files := cands.filter fun pc =>
    match pc.2.read with
    | .ok c => hasSub needle c
    | .error _ => false
  let results := files.map fun pc => update_file pc.1 pc.2
  let updated := (results.filter fun r => r.1).length
  ⟨updated, files.length,
    (chars ("🔄 Found ") ++ natChars files.length ++
      chars (" files with audit logging...")) ::
      (results.flatMap fun r => r.2.1) ++
      [chars ("\n✨ Complete! Updated ") ++ natChars updated ++ chars ("/") ++
        natChars files.length ++ chars (" files")]⟩

end Audit

namespace Auth

/-- Pattern 1 of `update_auth_patterns.py` (line 70), the "standard
format" authorization block (whitespace-flexible). -/
def p1 : Regex :=
  Regex.cat (.lit sessHead) (Regex.cats [
    .star wsP, .lit (chars ("if (")), .star wsP,
    .lit (chars ("!session?.user ||")), .star wsP,
    .lit (chars ("(session.user.role !== UserRole.ADMIN &&")), .star wsP,
    .lit (chars ("session.user.role !== UserRole.STAFF)")), .star wsP,
    .lit (chars (") \x7b")), .star wsP,
    .lit (chars ("return NextResponse.json(")), .star wsP,
    .lit (chars ("\x7b ")),
    .alt (.lit (chars ("message"))) (.lit (chars ("error"))),
    .lit (chars (": ")), .cls quoteP,
    .alt (Regex.cats [.lit (chars ("Unauthorized")),
        .opt (.lit (chars ("."))), .lit (chars (" ")),
        .opt (Regex.cat (.lit (chars ("Admin access required")))
          (.opt (.lit (chars (".")))))])
      (.lit (chars ("Unauthorized"))),
    .cls quoteP, .lit (chars (" \x7d,")), .star wsP,
    .lit (chars ("\x7b status: ")),
    .alt (.lit (chars ("401"))) (.lit (chars ("403"))),
    .lit (chars (" \x7d")), .star wsP, .lit (chars (");")), .star wsP,
    .lit (chars ("\x7d"))])

/-- Pattern 2 of `update_auth_patterns.py` (line 78), the "compact
format" block (fixed whitespace). -/
def p2 : Regex :=
  Regex.cat (.lit sessHead) (Regex.cats [
    .lit (chars ("\n\n    if (!session?.user || (session.user.role !== UserRole.ADMIN && session.user.role !== UserRole.STAFF)) \x7b\n      return NextResponse.json(\x7b ")),
    .alt (.lit (chars ("error"))) (.lit (chars ("message"))),
    .lit (chars (": ")), .cls quoteP, .lit (chars ("Unauthorized")),
    .cls quoteP, .lit (chars (" \x7d, \x7b status: 401 \x7d);\n    \x7d"))])

/-- The literal import line removed by
`re.sub(r"import \{ getServerSession \} from 'next-auth';\n", '', content)`
(the regex is a pure literal, so the scan equals `str.replace`). -/
def importRemove1 : List Char :=
  chars ("import \x7b getServerSession \x7d from 'next-auth';\n")

/-- The literal import line removed by
`re.sub(r"import \{ authOptions \} from '@/lib/auth/config';\n", '', content)`. -/
def importRemove2 : List Char :=
  chars ("import \x7b authOptions \x7d from '@/lib/auth/config';\n")

/-- The anchor pattern of the import insertion (line 61):
`(import \{ (?:NextRequest, NextResponse|NextResponse, NextRequest) \} from 'next/server';)`. -/
def nextImportPat : Regex :=
  Regex.cat (.lit (chars ("import \x7b ")))
    (Regex.cats [
      .alt (.lit (chars ("NextRequest, NextResponse")))
        (.lit (chars ("NextResponse, NextRequest"))),
      .lit (chars (" \x7d from 'next/server';"))])

/-- The dependency line appended after the matched import (`\1\n...`). -/
def importIns : List Char :=
  chars ("\nimport \x7b requireAdminRole \x7d from '@/lib/auth/authorization';")

/-- Step 1 (lines 54-65): if `requireAdminRole` is absent, remove the two
old import lines and insert the new import right after the
anchoring `next/server` import line (count=1). -/
def step1 (c : List Char) : List Char :=
  if hasSub (chars ("requireAdminRole")) c then c
  else
    sub1App nextImportPat importIns
      (replaceAll importRemove2 [] (replaceAll importRemove1 [] c))

/-- Step 2 (lines 69-81): substitute every occurrence of pattern 1,
then every occurrence of pattern 2, by `new_auth_code`. -/
def blockSubs (c : List Char) : List Char :=
  subAll p2 new_auth_code (subAll p1 new_auth_code c)

/-- Result of processing one file's text. -/
structure Out where
  text : List Char
  writes : List (List Char)
  ret : Bool

/-- The pure part of `update_file` (lines 48-90): import munging, block
substitution, write exactly when the final text differs from the
original. -/
def updateText (c : List Char) : Out :=
  let c2 := blockSubs (step1 c)
  if c2 ≠ c then ⟨c2, [c2], true⟩ else ⟨c2, [], false⟩

/-- The behaviour of `update_file` after a skipped Step 1: block
substitutions only.  (`updateText` coincides with this whenever
`requireAdminRole` already occurs in the text.) -/
def afterImports (c : List Char) : Out :=
  let c2 := blockSubs c
  if c2 ≠ c then ⟨c2, [c2], true⟩ else ⟨c2, [], false⟩

/-- Model of `update_file(filepath)` with the I/O outcomes explicit, as for the
audit script; the no-change branch prints `⚠️  No changes needed`. -/
def update_file (path : List Char) (fio : Fio) :
    Bool × List (List Char) × List (List Char) :=
  match fio.read with
  | .error e => (false, [errLine path e], [])
  | .ok content =>
    let o := updateText content
    match o.writes with
    | [] => (false, [chars ("⚠️  No changes needed: ") ++ path], [])
    | w :: _ =>
      match fio.wfail with
      | some e => (false, [errLine path e], [])
      | none => (true, [chars ("✅ Updated: ") ++ path], [w])

/-- One iteration of the batch loop (lines 100-105): existing paths go
through `update_file`, missing paths are logged and skipped. -/
def step (pc : List Char × Fio) : Bool × List (List Char) × List (List Char) :=
  if pc.2.exist then update_file pc.1 pc.2
  else (false, [chars ("⚠️  File not found: ") ++ pc.1], [])

/-- The per-file console lines of a run, in order. -/
def body (cs : List (List Char × Fio)) : List (List Char) :=
  (cs.map step).flatMap fun r => r.2.1

/-- The `updated_count` of a run. -/
def updCount (cs : List (List Char × Fio)) : Nat :=
  ((cs.map step).filter fun r => r.1).length

/-- Model of `main()` (lines 96-107). -/
def main (cs : List (List Char × Fio)) : MainOut :=
  ⟨updCount cs, cs.length,
    (chars ("🔄 Updating ") ++ natChars cs.length ++
      chars (" admin route files...")) ::
      body cs ++
      [chars ("\n✨ Complete! Updated ") ++ natChars (updCount cs) ++
        chars ("/") ++ natChars cs.length ++ chars (" files")]⟩

end Auth

namespace V2

/-- The idiom `\s*\n\s*` as a regex. -/
def wsNl : Regex :=
  Regex.cats [.star wsP, .lit (chars ("\n")), .star wsP]

/-- Pattern 1 of `update_auth_patterns_v2.py` (line 34): the multiline
3-role (ADMIN/STAFF/SUPERADMIN) block. -/
def p1 : Regex :=
  Regex.cat (.lit sessHead) (Regex.cats [
    .star wsP, .lit (chars ("\n")), .star wsP, .lit (chars ("\n")), .star wsP,
    .lit (chars ("if (")), wsNl, .lit (chars ("!session?.user ||")), wsNl,
    .lit (chars ("(session.user.role !== UserRole.ADMIN &&")), wsNl,
    .lit (chars ("session.user.role !== UserRole.STAFF &&")), wsNl,
    .lit (chars ("session.user.role !== UserRole.SUPERADMIN)")), wsNl,
    .lit (chars (") \x7b")), wsNl,
    .lit (chars ("return NextResponse.json(")), wsNl,
    .lit (chars ("\x7b ")),
    .alt (.lit (chars ("message"))) (.lit (chars ("error"))),
    .lit (chars (": ")), .cls quoteP, .star notQuoteP, .cls quoteP,
    .lit (chars (" \x7d,")), wsNl,
    .lit (chars ("\x7b status: ")), .plus digitP, .lit (chars (" \x7d")),
    wsNl, .lit (chars (");")), wsNl, .lit (chars ("\x7d"))])

/-- Pattern 2 (line 48): the multiline 2-role (ADMIN/STAFF) block. -/
def p2 : Regex :=
  Regex.cat (.lit sessHead) (Regex.cats [
    .star wsP, .lit (chars ("\n")), .star wsP, .lit (chars ("\n")), .star wsP,
    .lit (chars ("if (")), wsNl, .lit (chars ("!session?.user ||")), wsNl,
    .lit (chars ("(session.user.role !== UserRole.ADMIN &&")), wsNl,
    .lit (chars ("session.user.role !== UserRole.STAFF)")), wsNl,
    .lit (chars (") \x7b")), wsNl,
    .lit (chars ("return NextResponse.json(")), wsNl,
    .lit (chars ("\x7b ")),
    .alt (.lit (chars ("message"))) (.lit (chars ("error"))),
    .lit (chars (": ")), .cls quoteP, .star notQuoteP, .cls quoteP,
    .lit (chars (" \x7d,")), wsNl,
    .lit (chars ("\x7b status: ")), .plus digitP, .lit (chars (" \x7d")),
    wsNl, .lit (chars (");")), wsNl, .lit (chars ("\x7d"))])

/-- Pattern 3 (line 62): the compact single-line block, with an optional
SUPERADMIN clause. -/
def p3 : Regex :=
  Regex.cat (.lit sessHead) (Regex.cats [
    .lit (chars ("\n\n    if (!session?.user || (session.user.role !== UserRole.ADMIN && session.user.role !== UserRole.STAFF")),
    .opt (.lit (chars ("&& session.user.role !== UserRole.SUPERADMIN"))),
    .lit (chars (")) \x7b\n      return NextResponse.json(\x7b ")),
    .alt (.lit (chars ("error"))) (.lit (chars ("message"))),
    .lit (chars (": ")), .cls quoteP, .star notQuoteP, .cls quoteP,
    .lit (chars (" \x7d, \x7b status: ")), .plus digitP,
    .lit (chars (" \x7d);\n    \x7d"))])

/-- Pattern 4 (line 76): the multiline ADMIN/SUPERADMIN block. -/
def p4 : Regex :=
  Regex.cat (.lit sessHead) (Regex.cats [
    .star wsP, .lit (chars ("\n")), .star wsP, .lit (chars ("\n")), .star wsP,
    .lit (chars ("if (")), wsNl, .lit (chars ("!session?.user ||")), wsNl,
    .lit (chars ("(session.user.role !== UserRole.ADMIN &&")), wsNl,
    .lit (chars ("session.user.role !== UserRole.SUPERADMIN)")), wsNl,
    .lit (chars (") \x7b")), wsNl,
    .lit (chars ("return NextResponse.json(")), wsNl,
    .lit (chars ("\x7b ")),
    .alt (.lit (chars ("message"))) (.lit (chars ("error"))),
    .lit (chars (": ")), .cls quoteP, .star notQuoteP, .cls quoteP,
    .lit (chars (" \x7d,")), wsNl,
    .lit (chars ("\x7b status: ")), .plus digitP, .lit (chars (" \x7d")),
    wsNl, .lit (chars (");")), wsNl, .lit (chars ("\x7d"))])

/-- One of the `while pattern.search: pattern.sub(..., count=1)` loops.
Python iterates until the search fails; every match contains at least
one `'g'` (from `getServerSession`) while the replacement contains
none, so `countG` strictly decreases per iteration and the fuel
`countG input + 1` used below never runs out (proved in
`loopSub_exits`). -/
def loopSub (p : Regex) : Nat → List Char → Nat → List Char × Nat
  | 0, l, n => (l, n)
  | fuel + 1, l, n =>
    match findMatch p l with
    | none => (l, n)
    | some (pre, _, post) =>
      loopSub p fuel (pre ++ new_auth_code ++ post) (n + 1)

/-- The four substitution loops of `update_file` (lines 32-86), threading
`changes_made`. -/
def core (c : List Char) : List Char × Nat :=
  let a := loopSub p1 (countG c + 1) c 0
  let b := loopSub p2 (countG a.1 + 1) a.1 a.2
  let d := loopSub p3 (countG b.1 + 1) b.1 b.2
  loopSub p4 (countG d.1 + 1) d.1 d.2

/-- Result of processing one file's text. -/
structure Out where
  text : List Char
  writes : List (List Char)
  ret : Bool
  changes : Nat

/-- The pure part of `update_file` (lines 24-95): run the four loops and
write whenever `changes_made > 0`. -/
def updateText (c : List Char) : Out :=
  let r := core c
  if 0 < r.2 then ⟨r.1, [r.1], true, r.2⟩ else ⟨r.1, [], false, r.2⟩

/-- Model of `update_file(filepath)` with the I/O outcomes explicit. -/
def update_file (path : List Char) (fio : Fio) :
    Bool × List (List Char) × List (List Char) :=
  match fio.read with
  | .error e => (false, [errLine path e], [])
  | .ok content =>
    let o := updateText content
    match o.writes with
    | [] => (false, [chars ("⚠️  No patterns matched: ") ++ path], [])
    | w :: _ =>
      match fio.wfail with
      | some e => (false, [errLine path e], [])
      | none =>
        (true,
          [chars ("✅ Updated ") ++ path ++ chars (" (") ++
            natChars o.changes ++ chars (" handler(s))")], [w])

/-- One iteration of the batch loop (lines 105-110). -/
def step (pc : List Char × Fio) : Bool × List (List Char) × List (List Char) :=
  if pc.2.exist then update_file pc.1 pc.2
  else (false, [chars ("⚠️  File not found: ") ++ pc.1], [])

/-- The per-file console lines of a run, in order. -/
def body (cs : List (List Char × Fio)) : List (List Char) :=
  (cs.map step).flatMap fun r => r.2.1

/-- The `updated_count` of a run. -/
def updCount (cs : List (List Char × Fio)) : Nat :=
  ((cs.map step).filter fun r => r.1).length

/-- Model of `main()` (lines 101-112). -/
def main (cs : List (List Char × Fio)) : MainOut :=
  ⟨updCount cs, cs.length,
    (chars ("🔄 Updating ") ++ natChars cs.length ++
      chars (" remaining admin route files...")) ::
      body cs ++
      [chars ("\n✨ Complete! Updated ") ++ natChars (updCount cs) ++
        chars ("/") ++ natChars cs.length ++ chars (" files")]⟩

end V2

/-! Concrete inputs used to settle the claims. -/

/-- A compact legacy authorization block in the exact shape pattern 2 of
`update_auth_patterns.py` targets (also matched by its pattern 1). -/
def compactBlock : List Char :=
  chars ("const session = await getServerSession(authOptions);\n\n    if (!session?.user || (session.user.role !== UserRole.ADMIN && session.user.role !== UserRole.STAFF)) \x7b\n      return NextResponse.json(\x7b error: 'Unauthorized' \x7d, \x7b status: 401 \x7d);\n    \x7d")

/-- A file that already references `requireAdminRole` and still contains
a legacy authorization block. -/
def migratedPlusBlock : List Char := chars ("requireAdminRole\n") ++ compactBlock

/-- A file in which the old `getServerSession` import line occurs with
the two halves of a second copy of that line spliced around it: removing
the inner copy joins the halves into a fresh copy. -/
def importJuxIn : List Char :=
  chars ("import \x7b getSe") ++ Auth.importRemove1 ++
    chars ("rverSession \x7d from 'next-auth';\n")

/-- A file containing the legacy marker substring and the prisma import
anchor but no occurrence of the audit-block pattern. -/
def injectOnlyIn : List Char :=
  chars ("prisma.auditLog.create\nfrom '@/lib/db/prisma';\n")

/-- What `update_audit_logging.py` writes for `injectOnlyIn`. -/
def injectOnlyOut : List Char :=
  chars ("prisma.auditLog.create\nfrom '@/lib/db/prisma';\nimport \x7b logAudit \x7d from '@/lib/audit/logger';\n")

/-- The dependency-reference line of `update_audit_logging.py`. -/
def logAuditImportLine : List Char :=
  chars ("import \x7b logAudit \x7d from '@/lib/audit/logger';")

/-- A file containing the prisma import anchor twice. -/
def doubleAnchorIn : List Char :=
  chars ("prisma.auditLog.create\nfrom '@/lib/db/prisma';\nfrom '@/lib/db/prisma';\n")

/-- What `update_audit_logging.py` writes for `doubleAnchorIn`: the
dependency line is inserted after each anchor occurrence. -/
def doubleAnchorOut : List Char :=
  chars ("prisma.auditLog.create\nfrom '@/lib/db/prisma';\nimport \x7b logAudit \x7d from '@/lib/audit/logger';\nfrom '@/lib/db/prisma';\nimport \x7b logAudit \x7d from '@/lib/audit/logger';\n")

/-- Prefix of a compact legacy block, cut just after the opening quote of
the message string. -/
def juxPre : List Char :=
  chars ("const session = await getServerSession(authOptions);\n\n    if (!session?.user || (session.user.role !== UserRole.ADMIN && session.user.role !== UserRole.STAFF)) \x7b\n      return NextResponse.json(\x7b error: '")

/-- A full compact legacy block (empty message, status `1`), matched by
pattern 3 of `update_auth_patterns_v2.py`. -/
def juxBlock : List Char :=
  chars ("const session = await getServerSession(authOptions);\n\n    if (!session?.user || (session.user.role !== UserRole.ADMIN && session.user.role !== UserRole.STAFF)) \x7b\n      return NextResponse.json(\x7b error: '' \x7d, \x7b status: 1 \x7d);\n    \x7d")

/-- The tail of a compact legacy block, from inside the message string. -/
def juxPost : List Char := chars ("' \x7d, \x7b status: 1 \x7d);\n    \x7d")

/-- The text `juxPre ++ juxBlock ++ juxPost`: one pattern-3 occurrence; replacing
it splices `juxPre` and `juxPost` into a new pattern-3 match (the
replacement text contains no quote, so the message-string class runs
across it). -/
def juxText : List Char := juxPre ++ juxBlock ++ juxPost

/-- A two-candidate batch for `update_audit_logging.py`: one readable
file containing the marker substring, one file whose read raises. -/
def silentDropRun : List (List Char × Fio) :=
  [(chars ("A.ts"), ⟨true, .ok (chars ("prisma.auditLog.create")), none⟩),
   (chars ("B.ts"), ⟨true, .error (chars ("Permission denied")), none⟩)]

/-! Supporting lemmas. -/

theorem hasSub_spec (p : List Char) : ∀ l, hasSub p l = true ↔ p <:+: l := by
  intro l
  induction l with
  | nil => simp [hasSub, List.isEmpty_iff, List.infix_nil]
  | cons c cs ih =>
    simp [hasSub, List.isPrefixOf_iff_prefix, ih, List.infix_cons_iff]

theorem hasSub_of_infix_middle {p x : List Char} (h : p <:+: x)
    (a b : List Char) : hasSub p (a ++ x ++ b) = true := by
  rw [hasSub_spec]
  exact h.trans (List.infix_append a x b)

theorem replaceAllF_emits (p rep : List Char) (hp : p ≠ []) :
    ∀ (fuel : Nat) (l : List Char), l.length ≤ fuel → hasSub p l = true →
      ∃ a b, replaceAllF p rep fuel l = a ++ rep ++ b := by
  intro fuel
  induction fuel with
  | zero =>
    intro l hl hs
    have : l = [] := List.length_eq_zero.mp (Nat.le_zero.mp hl)
    subst this
    simp [hasSub, List.isEmpty_iff, hp] at hs
  | succ n ih =>
    intro l hl hs
    match l with
    | [] => simp [hasSub, List.isEmpty_iff, hp] at hs
    | c :: cs =>
      by_cases hpre : p.isPrefixOf (c :: cs) = true
      · refine ⟨[], replaceAllF p rep n (List.drop (p.length - 1) cs), ?_⟩
        simp [replaceAllF, hpre]
      · have hs' : hasSub p cs = true := by
          simp [hasSub, hpre] at hs
          simpa using hs
        have hcs : cs.length ≤ n := by
          simp at hl; omega
        obtain ⟨a, b, hab⟩ := ih cs hcs hs'
        refine ⟨c :: a, b, ?_⟩
        simp [replaceAllF, hpre, hab]

theorem replaceAll_emits {p : List Char} (rep : List Char) (hp : p ≠ [])
    {l : List Char} (hs : hasSub p l = true) :
    ∃ a b, replaceAll p rep l = a ++ rep ++ b := by
  have hpe : p.isEmpty = false := by
    cases p
    · exact absurd rfl hp
    · rfl
  rw [replaceAll, hpe]
  exact replaceAllF_emits p rep hp l.length l (Nat.le_refl _) hs

theorem findMatch_decomp (r : Regex) :
    ∀ l pre m q, findMatch r l = some (pre, m, q) → l = pre ++ m ++ q := by
  intro l
  induction l with
  | nil =>
    intro pre m q h
    simp only [findMatch] at h
    split at h
    · simp only [Option.some.injEq, Prod.mk.injEq] at h
      obtain ⟨h1, h2, h3⟩ := h
      subst h1; subst h2; subst h3; rfl
    · exact absurd h (by simp)
  | cons c cs ih =>
    intro pre m q h
    simp only [findMatch] at h
    split at h
    · simp only [Option.some.injEq, Prod.mk.injEq] at h
      obtain ⟨h1, h2, h3⟩ := h
      subst h1; subst h2; subst h3
      simp
    · rcases ho : findMatch r cs with _ | ⟨⟨p', m', q'⟩⟩
      · rw [ho] at h; simp at h
      · rw [ho] at h
        simp only [Option.map_some', Option.some.injEq, Prod.mk.injEq] at h
        obtain ⟨h1, h2, h3⟩ := h
        subst h1; subst h2; subst h3
        have := ih p' m' q' ho
        simp [this]

theorem matchesLen_cat_lit {s : List Char} {r : Regex} {l : List Char}
    {n : Nat} (h : n ∈ matchesLen (.cat (.lit s) r) l) :
    s.isPrefixOf l = true ∧ s.length ≤ n := by
  simp only [matchesLen] at h
  split at h
  · simp only [List.flatMap_cons, List.flatMap_nil, List.append_nil,
      List.mem_map] at h
    obtain ⟨m, _, hm⟩ := h
    refine ⟨by assumption, by omega⟩
  · simp at h

theorem prefix_take_of_le {s l : List Char} {n : Nat} (hp : s <+: l)
    (hn : s.length ≤ n) : s <+: l.take n := by
  obtain ⟨t, rfl⟩ := hp
  rw [List.take_append_eq_append_take, List.take_of_length_le hn]
  exact ⟨_, rfl⟩

theorem findMatch_lit_prefix {s : List Char} {r : Regex} :
    ∀ l pre m q, findMatch (.cat (.lit s) r) l = some (pre, m, q) →
      s <+: m := by
  intro l
  induction l with
  | nil =>
    intro pre m q h
    simp only [findMatch] at h
    split at h
    · rename_i n hn
      have hmem : n ∈ matchesLen (.cat (.lit s) r) [] :=
        List.mem_of_mem_head? (by rw [hn]; simp)
      have := (matchesLen_cat_lit hmem).1
      have hs : s = [] := by
        have := List.isPrefixOf_iff_prefix.mp this
        simpa using this
      simp only [Option.some.injEq, Prod.mk.injEq] at h
      obtain ⟨_, h2, _⟩ := h
      subst hs; subst h2; exact List.nil_prefix
    · exact absurd h (by simp)
  | cons c cs ih =>
    intro pre m q h
    simp only [findMatch] at h
    split at h
    · rename_i n hn
      have hmem : n ∈ matchesLen (.cat (.lit s) r) (c :: cs) :=
        List.mem_of_mem_head? (by rw [hn]; simp)
      obtain ⟨hpre, hle⟩ := matchesLen_cat_lit hmem
      simp only [Option.some.injEq, Prod.mk.injEq] at h
      obtain ⟨_, h2, _⟩ := h
      subst h2
      exact prefix_take_of_le (List.isPrefixOf_iff_prefix.mp hpre) hle
    · rcases ho : findMatch (.cat (.lit s) r) cs with _ | ⟨⟨p', m', q'⟩⟩
      · rw [ho] at h; simp at h
      · rw [ho] at h
        simp only [Option.map_some', Option.some.injEq, Prod.mk.injEq] at h
        obtain ⟨_, h2, _⟩ := h
        subst h2
        exact ih p' m' q' ho

theorem findMatch_countG_lt {s : List Char} {r : Regex}
    {repl l pre m q : List Char}
    (h : findMatch (.cat (.lit s) r) l = some (pre, m, q))
    (hs : 0 < countG s) (hrep : countG repl = 0) :
    countG (pre ++ repl ++ q) < countG l := by
  have hd := findMatch_decomp _ l pre m q h
  have hsp := findMatch_lit_prefix l pre m q h
  have hm : countG s ≤ countG m := hsp.count_le 'g'
  subst hd
  simp only [countG, List.count_append] at *
  omega

theorem findMatch_lit_ne_nil {s : List Char} {r : Regex}
    {l pre m q : List Char}
    (h : findMatch (.cat (.lit s) r) l = some (pre, m, q)) (hs : s ≠ []) :
    m ≠ [] := by
  have hsp := findMatch_lit_prefix l pre m q h
  intro hm
  subst hm
  exact hs (List.prefix_nil.mp hsp)

theorem loopSub_exits (p : Regex)
    (hdec : ∀ l pre m q, findMatch p l = some (pre, m, q) →
      countG (pre ++ new_auth_code ++ q) < countG l) :
    ∀ (f : Nat) (l : List Char) (n : Nat), countG l < f →
      findMatch p (V2.loopSub p f l n).1 = none := by
  intro f
  induction f with
  | zero => intro l n h; omega
  | succ f ih =>
    intro l n h
    rcases hm : findMatch p l with _ | ⟨⟨pre, m, q⟩⟩
    · simp [V2.loopSub, hm]
    · have hlt := hdec l pre m q hm
      simp only [V2.loopSub, hm]
      exact ih _ (n + 1) (by omega)

theorem loopSub_invariant (p : Regex)
    (hdec : ∀ l pre m q, findMatch p l = some (pre, m, q) →
      countG (pre ++ new_auth_code ++ q) < countG l) :
    ∀ (f : Nat) (l : List Char) (n : Nat),
      n ≤ (V2.loopSub p f l n).2 ∧
      countG (V2.loopSub p f l n).1 + ((V2.loopSub p f l n).2 - n) ≤ countG l := by
  intro f
  induction f with
  | zero => intro l n; simp [V2.loopSub]
  | succ f ih =>
    intro l n
    rcases hm : findMatch p l with _ | ⟨⟨pre, m, q⟩⟩
    · simp [V2.loopSub, hm]
    · have hlt := hdec l pre m q hm
      have := ih (pre ++ new_auth_code ++ q) (n + 1)
      simp only [V2.loopSub, hm]
      omega

theorem v2_hdec (r : Regex) :
    ∀ l pre m q, findMatch (Regex.cat (.lit sessHead) r) l = some (pre, m, q) →
      countG (pre ++ new_auth_code ++ q) < countG l := by
  intro l pre m q h
  exact findMatch_countG_lt h (by decide) (by decide)

theorem v2_hdec_p1 : ∀ l pre m q, findMatch V2.p1 l = some (pre, m, q) →
    countG (pre ++ new_auth_code ++ q) < countG l := by
  intro l pre m q h
  exact v2_hdec _ l pre m q h

theorem v2_hdec_p2 : ∀ l pre m q, findMatch V2.p2 l = some (pre, m, q) →
    countG (pre ++ new_auth_code ++ q) < countG l := by
  intro l pre m q h
  exact v2_hdec _ l pre m q h

theorem v2_hdec_p3 : ∀ l pre m q, findMatch V2.p3 l = some (pre, m, q) →
    countG (pre ++ new_auth_code ++ q) < countG l := by
  intro l pre m q h
  exact v2_hdec _ l pre m q h

theorem v2_hdec_p4 : ∀ l pre m q, findMatch V2.p4 l = some (pre, m, q) →
    countG (pre ++ new_auth_code ++ q) < countG l := by
  intro l pre m q h
  exact v2_hdec _ l pre m q h

theorem v2_core_countG (c : List Char) :
    countG (V2.core c).1 + (V2.core c).2 ≤ countG c := by
  have h1 := loopSub_invariant V2.p1 v2_hdec_p1 (countG c + 1) c 0
  simp only [V2.core]
  set a := V2.loopSub V2.p1 (countG c + 1) c 0 with ha
  have h2 := loopSub_invariant V2.p2 v2_hdec_p2 (countG a.1 + 1) a.1 a.2
  set b := V2.loopSub V2.p2 (countG a.1 + 1) a.1 a.2 with hb
  have h3 := loopSub_invariant V2.p3 v2_hdec_p3 (countG b.1 + 1) b.1 b.2
  set d := V2.loopSub V2.p3 (countG b.1 + 1) b.1 b.2 with hd
  have h4 := loopSub_invariant V2.p4 v2_hdec_p4 (countG d.1 + 1) d.1 d.2
  omega

theorem v2_core_ne (c : List Char) (h : 0 < (V2.core c).2) :
    (V2.core c).1 ≠ c := by
  have := v2_core_countG c
  intro he
  rw [he] at this
  omega

theorem subAllF_count (r : Regex) (rep : List Char) :
    ∀ (f : Nat) (l : List Char), (subAllF r rep f l).2 = countMatchesF r f l := by
  intro f
  induction f with
  | zero => intro l; rfl
  | succ f ih =>
    intro l
    rcases hm : findMatch r l with _ | ⟨⟨pre, m, q⟩⟩
    · simp [subAllF, countMatchesF, hm]
    · by_cases he : m.isEmpty
      · simp [subAllF, countMatchesF, hm, he]
      · simp [subAllF, countMatchesF, hm, he, ih]

theorem subAllF_of_count_zero (r : Regex) (rep : List Char) :
    ∀ (f : Nat) (l : List Char), countMatchesF r f l = 0 →
      (subAllF r rep f l).1 = l := by
  intro f
  induction f with
  | zero => intro l _; rfl
  | succ f ih =>
    intro l h
    rcases hm : findMatch r l with _ | ⟨⟨pre, m, q⟩⟩
    · simp [subAllF, hm]
    · by_cases he : m.isEmpty
      · simp [subAllF, hm, he]
      · simp [countMatchesF, hm, he] at h

theorem subAllF_none (r : Regex) (rep : List Char) (f : Nat) (l : List Char)
    (h : findMatch r l = none) : subAllF r rep (f + 1) l = (l, 0) := by
  simp [subAllF, h]

theorem subAllFnF_none (a g b : Regex) (fn : List Char → List Char → List Char)
    (f : Nat) (l : List Char) (h : findGMatch a g b l = none) :
    subAllFnF a g b fn (f + 1) l = l := by
  simp [subAllFnF, h]

theorem loopSub_none (p : Regex) (f : Nat) (l : List Char) (n : Nat)
    (h : findMatch p l = none) : V2.loopSub p (f + 1) l n = (l, n) := by
  simp [V2.loopSub, h]

theorem auth_step_lines (pc : List Char × Fio) :
    ((Auth.step pc).2.1).length = 1 := by
  rcases pc with ⟨path, ex, rd, wf⟩
  by_cases hex : ex
  · simp only [Auth.step, hex, if_true]
    rcases rd with e | content
    · simp [Auth.update_file]
    · simp only [Auth.update_file]
      rcases hw : (Auth.updateText content).writes with _ | ⟨w, ws⟩
      · simp
      · rcases wf with _ | e
        · simp
        · simp
  · simp [Auth.step, hex]

theorem auth_body_length (cs : List (List Char × Fio)) :
    (Auth.body cs).length = cs.length := by
  induction cs with
  | nil => rfl
  | cons c cs ih =>
    simp only [Auth.body, List.map_cons, List.flatMap_cons, List.length_append,
      List.length_cons]
    have := auth_step_lines c
    simp only [Auth.body] at ih
    omega

theorem auth_body_append (xs ys : List (List Char × Fio)) :
    Auth.body (xs ++ ys) = Auth.body xs ++ Auth.body ys := by
  simp [Auth.body, List.map_append, List.flatMap_append]

theorem auth_updCount_append (xs ys : List (List Char × Fio)) :
    Auth.updCount (xs ++ ys) = Auth.updCount xs + Auth.updCount ys := by
  simp [Auth.updCount, List.map_append, List.filter_append]

/-! The claims. -/

/-- C1: whenever the `userId`, `action` or `resource` sub-field
cannot be extracted from the captured data of a matched audit-log
block, `replace_audit_log` returns the whole matched text (`group(0)`)
unchanged, so the occurrence stays verbatim in the output. -/
theorem claim_C1 (whole grp : List Char)
    (h : searchGroup Audit.userIdA (.plus notCommaNlP) .eps grp = none ∨
         searchGroup Audit.actionA (.plus wordP) (.cls quoteP) grp = none ∨
         searchGroup Audit.resourceA (.plus wordP) (.cls quoteP) grp = none) :
    Audit.replace_audit_log whole grp = whole := by
  simp only [Audit.replace_audit_log]
  cases hu : searchGroup Audit.userIdA (.plus notCommaNlP) .eps grp <;>
  cases ha : searchGroup Audit.actionA (.plus wordP) (.cls quoteP) grp <;>
  cases hr : searchGroup Audit.resourceA (.plus wordP) (.cls quoteP) grp <;>
    simp_all

/-- Witness for C1: on data with no `action:` field the rewrite returns
the matched text unchanged. -/
theorem claim_C1_witness :
    searchGroup Audit.actionA (.plus wordP) (.cls quoteP) (chars ("userId: u1,")) = none ∧
    Audit.replace_audit_log (chars ("W")) (chars ("userId: u1,")) = chars ("W") :=
  ⟨by decide, claim_C1 (chars ("W")) (chars ("userId: u1,"))
    (Or.inr (Or.inl (by decide)))⟩

/-- C2: in each of the three scripts, processing one file performs at
most one write, and a write only happens when the written text differs
from the text read at the start of processing that file.  (For
`update_auth_patterns_v2.py` the guard is `changes_made > 0`, but any
substitution removes a `getServerSession` occurrence, so a positive
count forces a textual change.) -/
theorem claim_C2 (c w : List Char) :
    ((Audit.updateText c).writes.length ≤ 1 ∧
      (w ∈ (Audit.updateText c).writes → w ≠ c)) ∧
    ((Auth.updateText c).writes.length ≤ 1 ∧
      (w ∈ (Auth.updateText c).writes → w ≠ c)) ∧
    ((V2.updateText c).writes.length ≤ 1 ∧
      (w ∈ (V2.updateText c).writes → w ≠ c)) := by
  refine ⟨?_, ?_, ?_⟩
  · simp only [Audit.updateText]
    split_ifs with h1 h2 h3 h4 <;>
      refine ⟨by simp, fun hw => ?_⟩ <;>
      simp only [List.mem_singleton, List.not_mem_nil] at hw <;>
      first
        | exact hw.elim
        | (subst hw; simp_all)
  · simp only [Auth.updateText]
    split
    · rename_i hne
      refine ⟨by simp, ?_⟩
      intro hw
      simp only [List.mem_singleton] at hw
      subst hw
      exact hne
    · simp
  · simp only [V2.updateText]
    split
    · rename_i hpos
      refine ⟨by simp, ?_⟩
      intro hw
      simp only [List.mem_singleton] at hw
      subst hw
      exact v2_core_ne c hpos
    · simp

/-- Witness for C2: the audit script writes a file whose text differs
from the input. -/
theorem claim_C2_witness :
    injectOnlyOut ∈ (Audit.updateText injectOnlyIn).writes ∧
    injectOnlyOut ≠ injectOnlyIn :=
  ⟨by decide, (claim_C2 injectOnlyIn injectOnlyOut).1.2 (by decide)⟩

/-- Counterexample to C3: a file that already contains the helper symbol
`requireAdminRole` (the already-migrated detector fires) is still
rewritten and written by `update_auth_patterns.py`, because the
substring check guards only the import step. -/
theorem claim_C3_cex :
    hasSub (chars ("requireAdminRole")) migratedPlusBlock = true ∧
    (Auth.updateText migratedPlusBlock).writes =
      [chars ("requireAdminRole\n") ++ new_auth_code] ∧
    (Auth.updateText migratedPlusBlock).text ≠ migratedPlusBlock := by
  refine ⟨by decide, by decide, by decide⟩

/-- C3 (amended): the helper-symbol substring check does not skip the
whole file; it only skips the import-munging step of
`update_auth_patterns.py` (block rewriting still runs), and the only
whole-file skip is the audit script's check that the *legacy* substring
`prisma.auditLog.create` is absent, in which case the input is returned
unchanged and not written. -/
theorem claim_C3 :
    (∀ c, hasSub Audit.needle c = false →
      Audit.updateText c = ⟨c, [], false, 0⟩) ∧
    (∀ c, hasSub (chars ("requireAdminRole")) c = true →
      Auth.updateText c = Auth.afterImports c) := by
  constructor
  · intro c h
    simp [Audit.updateText, h]
  · intro c h
    simp [Auth.updateText, Auth.afterImports, Auth.step1, h]

/-- Witness for the amended C3. -/
theorem claim_C3_witness :
    hasSub Audit.needle (chars ("x")) = false ∧
    Audit.updateText (chars ("x")) = ⟨chars ("x"), [], false, 0⟩ ∧
    hasSub (chars ("requireAdminRole")) new_auth_code = true ∧
    Auth.updateText new_auth_code = Auth.afterImports new_auth_code :=
  ⟨by decide, claim_C3.1 (chars ("x")) (by decide), by decide,
    claim_C3.2 new_auth_code (by decide)⟩

/-- Counterexample to C4: removing the `getServerSession` import line
can splice the surrounding text into a fresh copy of that line, so a
second run of `update_auth_patterns.py` on the first run's output
changes the text again and performs another write. -/
theorem claim_C4_cex :
    (Auth.updateText importJuxIn).writes = [Auth.importRemove1] ∧
    (Auth.updateText Auth.importRemove1).writes = [[]] ∧
    Auth.importRemove1 ≠ importJuxIn := by
  refine ⟨by decide, by decide, by decide⟩

/-- C4 (amended): a second run makes no change and performs no write
provided the first run's output contains no remaining occurrence of the
rewrite patterns and (for the import steps) already references the
helper symbol; in general a substitution can juxtapose text into a new
match, and then a second run rewrites again. -/
theorem claim_C4 :
    (∀ c, hasSub (chars ("logAudit")) c = true →
      findGMatch Audit.patA Audit.patG Audit.patB c = none →
      (Audit.updateText c).writes = [] ∧ (Audit.updateText c).text = c) ∧
    (∀ c, hasSub (chars ("requireAdminRole")) c = true →
      findMatch Auth.p1 c = none → findMatch Auth.p2 c = none →
      (Auth.updateText c).writes = [] ∧ (Auth.updateText c).text = c) ∧
    (∀ c, findMatch V2.p1 c = none → findMatch V2.p2 c = none →
      findMatch V2.p3 c = none → findMatch V2.p4 c = none →
      (V2.updateText c).writes = [] ∧ (V2.updateText c).text = c) := by
  refine ⟨?_, ?_, ?_⟩
  · intro c hla hnm
    by_cases hn : hasSub Audit.needle c = true
    · have hinj : Audit.injectStep c = (c, 0) := by
        simp [Audit.injectStep, hla]
      have hsub : Audit.subPass c = c := by
        simp only [Audit.subPass, subAllFn]
        exact subAllFnF_none _ _ _ _ _ _ hnm
      simp [Audit.updateText, hn, hinj, hsub]
    · simp only [Bool.not_eq_true] at hn
      simp [Audit.updateText, hn]
  · intro c hra h1 h2
    have hs1 : Auth.step1 c = c := by simp [Auth.step1, hra]
    have hb : Auth.blockSubs c = c := by
      simp only [Auth.blockSubs, subAll, subAllN]
      rw [subAllF_none _ _ _ _ h1]
      exact congrArg Prod.fst (subAllF_none _ _ _ _ h2)
    simp [Auth.updateText, hs1, hb]
  · intro c h1 h2 h3 h4
    have l1 : V2.loopSub V2.p1 (countG c + 1) c 0 = (c, 0) :=
      loopSub_none _ _ _ _ h1
    have l2 : V2.loopSub V2.p2 (countG c + 1) c 0 = (c, 0) :=
      loopSub_none _ _ _ _ h2
    have l3 : V2.loopSub V2.p3 (countG c + 1) c 0 = (c, 0) :=
      loopSub_none _ _ _ _ h3
    have l4 : V2.loopSub V2.p4 (countG c + 1) c 0 = (c, 0) :=
      loopSub_none _ _ _ _ h4
    simp [V2.updateText, V2.core, l1, l2, l3, l4]

/-- Witness for the amended C4. -/
theorem claim_C4_witness :
    findMatch V2.p3 new_auth_code = none ∧
    (V2.updateText new_auth_code).writes = [] ∧
    (V2.updateText new_auth_code).text = new_auth_code :=
  ⟨by decide,
    (claim_C4.2.2 new_auth_code (by decide) (by decide) (by decide)
      (by decide)).1,
    (claim_C4.2.2 new_auth_code (by decide) (by decide) (by decide)
      (by decide)).2⟩

/-- Counterexample to C5: on a file containing the marker substring and
the import anchor but no occurrence of the audit-block pattern,
`update_audit_logging.py` inserts the dependency line and writes the
file even though no rewrite rule fired. -/
theorem claim_C5_cex :
    hasSub Audit.needle injectOnlyIn = true ∧
    findGMatch Audit.patA Audit.patG Audit.patB injectOnlyOut = none ∧
    (Audit.updateText injectOnlyIn).writes = [injectOnlyOut] ∧
    hasSub logAuditImportLine injectOnlyOut = true ∧
    hasSub logAuditImportLine injectOnlyIn = false := by
  refine ⟨by decide, by decide, by decide, by decide, by decide⟩

/-- C5 (amended): the injection step is guarded by substring checks,
not by rule firing: the audit script touches a file only when the
legacy marker substring is present, and injects only when the helper
symbol is absent; the auth script's import removal/insertion runs
exactly when `requireAdminRole` is absent, even if no block is
rewritten. -/
theorem claim_C5 :
    (∀ c w, w ∈ (Audit.updateText c).writes → hasSub Audit.needle c = true) ∧
    (∀ c, hasSub (chars ("logAudit")) c = true → Audit.injectStep c = (c, 0)) ∧
    (∀ c, hasSub (chars ("requireAdminRole")) c = true → Auth.step1 c = c) := by
  refine ⟨?_, ?_, ?_⟩
  · intro c w hw
    by_cases hn : hasSub Audit.needle c = true
    · exact hn
    · simp only [Bool.not_eq_true] at hn
      simp [Audit.updateText, hn] at hw
  · intro c h
    simp [Audit.injectStep, h]
  · intro c h
    simp [Auth.step1, h]

/-- Witness for the amended C5. -/
theorem claim_C5_witness :
    hasSub (chars ("requireAdminRole")) new_auth_code = true ∧
    Auth.step1 new_auth_code = new_auth_code :=
  ⟨by decide, claim_C5.2.2 new_auth_code (by decide)⟩

/-- Counterexample to C6: `juxText` contains exactly one occurrence of
pattern 3 of `update_auth_patterns_v2.py` (and none of the other three
patterns), yet the script performs two conversions on it: replacing the
single occurrence splices the surrounding text into a new match, which
the `while` loop then also converts. -/
theorem claim_C6_cex :
    countMatches V2.p3 juxText = 1 ∧ countMatches V2.p1 juxText = 0 ∧
    countMatches V2.p2 juxText = 0 ∧ countMatches V2.p4 juxText = 0 ∧
    (V2.core juxText).2 = 2 := by
  refine ⟨by decide, by decide, by decide, by decide, by decide⟩

/-- C6 (amended): in `update_auth_patterns.py`, the single-pass
`re.sub` performs exactly one replacement per leftmost non-overlapping
occurrence (the replacement count equals the number of such
occurrences, and a file with zero occurrences is left unchanged; every
match is nonempty, so consecutive matches cannot coincide).  In
`update_auth_patterns_v2.py`, each loop iteration converts the current
leftmost occurrence once, but a replacement can juxtapose text into a
new match, so the applied count can exceed the number of occurrences
originally present. -/
theorem claim_C6 :
    (∀ l, (subAllN Auth.p1 new_auth_code l).2 = countMatches Auth.p1 l) ∧
    (∀ l, (subAllN Auth.p2 new_auth_code l).2 = countMatches Auth.p2 l) ∧
    (∀ l pre m q, findMatch Auth.p2 l = some (pre, m, q) → m ≠ []) ∧
    (∀ l, countMatches Auth.p2 l = 0 → subAll Auth.p2 new_auth_code l = l) := by
  refine ⟨?_, ?_, ?_, ?_⟩
  · intro l
    simp only [subAllN, countMatches]
    exact subAllF_count _ _ _ _
  · intro l
    simp only [subAllN, countMatches]
    exact subAllF_count _ _ _ _
  · intro l pre m q h
    exact findMatch_lit_ne_nil h (by decide)
  · intro l h
    simp only [countMatches] at h
    simp only [subAll, subAllN]
    exact subAllF_of_count_zero _ _ _ _ h

/-- Witness for the amended C6. -/
theorem claim_C6_witness :
    countMatches Auth.p2 (chars ("x")) = 0 ∧
    subAll Auth.p2 new_auth_code (chars ("x")) = chars ("x") :=
  ⟨by decide, claim_C6.2.2.2 (chars ("x")) (by decide)⟩

/-- Counterexample to C7: `str.replace` replaces every anchor
occurrence, so a single injection pass over a file with two prisma
anchors inserts two copies of the dependency line; a second run
then adds none. -/
theorem claim_C7_cex :
    (Audit.updateText doubleAnchorIn).writes = [doubleAnchorOut] ∧
    countOcc logAuditImportLine doubleAnchorOut = 2 ∧
    (Audit.updateText doubleAnchorOut).writes = [] := by
  refine ⟨by decide, by decide, by decide⟩

/-- C7 (amended): one injection pass inserts one copy of the
dependency line per anchor occurrence (two anchors give two copies);
re-running adds no further copies, because a pass that fired leaves the
helper symbol in the text and the injection step is skipped whenever
the helper symbol occurs — the injection step is idempotent. -/
theorem claim_C7 :
    (∀ c, (Audit.injectStep c).2 = 1 →
      hasSub (chars ("logAudit")) (Audit.injectStep c).1 = true) ∧
    (∀ c, (Audit.injectStep (Audit.injectStep c).1).1 = (Audit.injectStep c).1) := by
  have key : ∀ c, (!hasSub (chars ("logAudit")) c && hasSub Audit.anchor c) = true →
      hasSub (chars ("logAudit"))
        (replaceAll Audit.anchor (Audit.anchor ++ Audit.importIns) c) = true := by
    intro c hg
    rw [Bool.and_eq_true, Bool.not_eq_true'] at hg
    obtain ⟨a, b, hab⟩ := replaceAll_emits (Audit.anchor ++ Audit.importIns)
      (by decide) hg.2
    rw [hab]
    exact hasSub_of_infix_middle ((hasSub_spec _ _).mp (by decide)) a b
  constructor
  · intro c h
    by_cases hg : (!hasSub (chars ("logAudit")) c && hasSub Audit.anchor c) = true
    · simp only [Audit.injectStep, hg, if_true]
      exact key c hg
    · simp [Audit.injectStep, hg] at h
  · intro c
    by_cases hg : (!hasSub (chars ("logAudit")) c && hasSub Audit.anchor c) = true
    · have h1 : (Audit.injectStep c).1 =
          replaceAll Audit.anchor (Audit.anchor ++ Audit.importIns) c := by
        simp [Audit.injectStep, hg]
      have h2 := key c hg
      rw [h1]
      rw [← h1] at h2
      rw [h1] at h2
      simp [Audit.injectStep, h2]
    · have h1 : Audit.injectStep c = (c, 0) := by simp [Audit.injectStep, hg]
      rw [h1]
      simp [h1]

/-- Witness for the amended C7. -/
theorem claim_C7_witness :
    (Audit.injectStep doubleAnchorIn).2 = 1 ∧
    hasSub (chars ("logAudit")) (Audit.injectStep doubleAnchorIn).1 = true :=
  ⟨by decide, claim_C7.1 doubleAnchorIn (by decide)⟩

/-- C8: in all three scripts a read or write exception is caught
inside `update_file`, which prints `❌ Error updating <path>: <message>`
and returns `False`; and the batch loop is a plain fold, so the
remaining candidates are processed unchanged (per-file results compose
additively over list concatenation). -/
theorem claim_C8 :
    (∀ p e ex wf, Audit.update_file p ⟨ex, .error e, wf⟩ =
      (false, [errLine p e], [])) ∧
    (∀ p e ex wf, Auth.update_file p ⟨ex, .error e, wf⟩ =
      (false, [errLine p e], [])) ∧
    (∀ p e ex wf, V2.update_file p ⟨ex, .error e, wf⟩ =
      (false, [errLine p e], [])) ∧
    (∀ p c e ex w ws, (Audit.updateText c).writes = w :: ws →
      Audit.update_file p ⟨ex, .ok c, some e⟩ = (false, [errLine p e], [])) ∧
    (∀ p c e ex w ws, (Auth.updateText c).writes = w :: ws →
      Auth.update_file p ⟨ex, .ok c, some e⟩ = (false, [errLine p e], [])) ∧
    (∀ p c e ex w ws, (V2.updateText c).writes = w :: ws →
      V2.update_file p ⟨ex, .ok c, some e⟩ = (false, [errLine p e], [])) ∧
    (∀ xs ys, Auth.body (xs ++ ys) = Auth.body xs ++ Auth.body ys ∧
      Auth.updCount (xs ++ ys) = Auth.updCount xs + Auth.updCount ys) := by
  refine ⟨fun p e ex wf => rfl, fun p e ex wf => rfl, fun p e ex wf => rfl,
    ?_, ?_, ?_, fun xs ys => ⟨auth_body_append xs ys, auth_updCount_append xs ys⟩⟩
  · intro p c e ex w ws h
    simp [Audit.update_file, h]
  · intro p c e ex w ws h
    simp [Auth.update_file, h]
  · intro p c e ex w ws h
    simp [V2.update_file, h]

/-- Witness for C8: a write failure is reported with the error line and
`False`. -/
theorem claim_C8_witness :
    (Auth.updateText Auth.importRemove1).writes = [[]] ∧
    Auth.update_file (chars ("a.ts"))
        ⟨true, .ok Auth.importRemove1, some (chars ("disk full"))⟩ =
      (false, [errLine (chars ("a.ts")) (chars ("disk full"))], []) :=
  ⟨by decide,
    claim_C8.2.2.2.2.1 (chars ("a.ts")) Auth.importRemove1
      (chars ("disk full")) true [] [] (by decide)⟩

/-- Counterexample to C9: `update_audit_logging.py`'s pre-scan silently
drops a candidate whose read raises (`except: pass`): in a run over two
candidates, the unreadable one gets no console line at all and the
final tally's denominator is 1, not 2. -/
theorem claim_C9_cex :
    silentDropRun.length = 2 ∧
    (Audit.main silentDropRun).total = 1 ∧
    (Audit.main silentDropRun).updated = 0 ∧
    (Audit.main silentDropRun).lines =
      [chars ("🔄 Found 1 files with audit logging..."),
       chars ("\n✨ Complete! Updated 0/1 files")] := by
  refine ⟨by decide, by decide, by decide, by decide⟩

/-- C9 (amended): in `update_auth_patterns.py` every candidate is
accounted for — a missing path is logged, every processed file prints
exactly one status line (so the run prints one line per candidate plus
the header and the tally), and the tally's denominator is the full
candidate count; the audit script, by contrast, silently drops
unreadable or marker-free candidates during its pre-scan. -/
theorem claim_C9 (cs : List (List Char × Fio)) :
    (Auth.main cs).total = cs.length ∧
    (Auth.main cs).lines.length = cs.length + 2 ∧
    (Auth.main cs).updated ≤ cs.length := by
  refine ⟨rfl, ?_, ?_⟩
  · simp only [Auth.main, List.length_cons, List.length_append,
      List.length_nil, auth_body_length]
  · simp only [Auth.main]
    calc Auth.updCount cs ≤ (cs.map Auth.step).length :=
          List.length_filter_le _ _
    _ = cs.length := List.length_map _ _

/-- Counterexample to C10: on `juxText` one iteration of the pattern-3
loop of `update_auth_patterns_v2.py` replaces the unique leftmost match,
and the number of remaining pattern-3 matches is still 1 — it does not
strictly decrease. -/
theorem claim_C10_cex :
    findMatch V2.p3 juxText = some (juxPre, juxBlock, juxPost) ∧
    countMatches V2.p3 juxText = 1 ∧
    countMatches V2.p3 (juxPre ++ new_auth_code ++ juxPost) = 1 := by
  refine ⟨by decide, by decide, by decide⟩

/-- C10 (amended): each of the four `while` loops terminates, but the
decreasing measure is the number of `'g'` characters (every match
starts with the literal `const session = await
getServerSession(authOptions);`, which contains a `'g'`, while the
replacement contains none), not the number of remaining matches: with
fuel `countG l + 1` — the fuel `update_file` uses — each loop reaches a
state its pattern no longer matches, i.e. the Python loop exits. -/
theorem claim_C10 (l : List Char) (n : Nat) :
    findMatch V2.p1 ((V2.loopSub V2.p1 (countG l + 1) l n).1) = none ∧
    findMatch V2.p2 ((V2.loopSub V2.p2 (countG l + 1) l n).1) = none ∧
    findMatch V2.p3 ((V2.loopSub V2.p3 (countG l + 1) l n).1) = none ∧
    findMatch V2.p4 ((V2.loopSub V2.p4 (countG l + 1) l n).1) = none :=
  ⟨loopSub_exits _ v2_hdec_p1 _ l n (by omega),
   loopSub_exits _ v2_hdec_p2 _ l n (by omega),
   loopSub_exits _ v2_hdec_p3 _ l n (by omega),
   loopSub_exits _ v2_hdec_p4 _ l n (by omega)⟩
